import Mathlib

/-!
Shallow embedding of the bee-hotel client-side load-balancing HTTP layer
(package `bee`): the `MultiClient` health-tracking / address-selection state
machine (multiclient.go) and the `MultiClientRequest` build/execute/decode
pipeline (multiclient-request.go).

Conventions of the embedding:
* Go slices become `List`; the Go `nil` slice and the empty slice are both
  `[]` (every observation the code makes — `len`, indexing — agrees).
* Effectful calls (TCP probes, `rand.Intn`, the HTTP transport) become
  explicit parameters: a probe oracle `isHealthy : Nat → Bool` indexed by
  pool position, a random seed `r : Nat` (with `rand.Intn n` modelled as
  `r % n`, which reaches every value in `[0, n)`), and per-attempt
  selection / perform oracles for the retry loop.
* Go `int` is `Int` where the sign can matter (`RetryLimit`,
  `minSuccessfulAddresses`, status codes); counters that are provably
  nonnegative are `Nat`.
* A Go runtime panic (nil-reader dereference, out-of-bounds index) is a
  distinguished result (`EncodeResult.nilDeref`, `Option.none`).
-/

namespace Bee

/-- `RequestBodyType` with its four constants (multiclient.go). -/
inductive RequestBodyType
  | BodyRaw
  | BodyXml
  | BodyJson
  | BodyForm
deriving DecidableEq, Repr

/-- The fields of `MultiClient` that the health tracker and the address
selector read or write: the endpoint pool `Addresses`, the flag
`HealthChecks`, the snapshot `healthyAddresses` (indices into the pool),
and the activation flag `active`. -/
structure MCState where
  Addresses : List String
  healthyAddresses : List Nat
  active : Bool
  HealthChecks : Bool
deriving DecidableEq, Repr

/-- `MultiClient.SetAddresses`: replaces the pool, leaving the snapshot
untouched. -/
def SetAddresses (st : MCState) (addresses : List String) : MCState :=
  { st with Addresses := addresses }

/-- The scan loop inside `MultiClient.checkConnect`: iterates pool indices
`i, i+1, ...` over the remaining `rem` entries, appending each index whose
probe passes, and breaks as soon as the running success count reaches
`minS` (the Go `if successfulChecks >= minSuccessfulAddresses { break }`
runs after the probe of each entry, so a pass that reaches the threshold is
still recorded first). `count` is the running `successfulChecks`. -/
def checkScan (isHealthy : Nat → Bool) (minS : Int) : Nat → Nat → Nat → List Nat
  | 0, _, _ => []
  | rem + 1, i, count =>
    if isHealthy i then
      if ((count : Int) + 1) ≥ minS then [i]
      else i :: checkScan isHealthy minS rem (i + 1) (count + 1)
    else
      if (count : Int) ≥ minS then []
      else checkScan isHealthy minS rem (i + 1) count

/-- `MultiClient.checkConnect(minSuccessfulAddresses)`: when active,
replaces the snapshot with the scan result and then errors iff fewer than
`minS` passes were recorded; when inactive, sets the snapshot to nil and
errors. Returns the new state and the error (`none` = Go `nil`). -/
def checkConnect (st : MCState) (isHealthy : Nat → Bool) (minS : Int) :
    MCState × Option String :=
  if st.active then
    let hs := checkScan isHealthy minS st.Addresses.length 0 0
    if (hs.length : Int) < minS then
      ({ st with healthyAddresses := hs },
       some "Not enough healthy addresses configured to meet requested minimum")
    else
      ({ st with healthyAddresses := hs }, none)
  else
    ({ st with healthyAddresses := [] }, some "Client is not active")

/-- `MultiClient.CheckAll`: `checkConnect(len(self.Addresses))`. -/
def CheckAll (st : MCState) (isHealthy : Nat → Bool) : MCState × Option String :=
  checkConnect st isHealthy (st.Addresses.length : Int)

/-- `MultiClient.Suspend`: sets `active = false`, then calls `CheckAll`
(the Go method discards `CheckAll`'s error; the model returns it so the
triggered check's outcome can be stated). -/
def Suspend (st : MCState) (isHealthy : Nat → Bool) : MCState × Option String :=
  CheckAll { st with active := false } isHealthy

/-- `MultiClient.GetRandomHealthyAddress`, with `rand.Intn n` modelled as
`r % n` for an arbitrary seed `r` (the guards ensure `n > 0` at each call,
as in the source). -/
def GetRandomHealthyAddress (st : MCState) (r : Nat) : Except String String :=
  if st.HealthChecks then
    if st.healthyAddresses.length = 0 then
      .error "No healthy addresses found"
    else
      let randId := st.healthyAddresses.getD (r % st.healthyAddresses.length) 0
      if randId < st.Addresses.length then
        .ok (st.Addresses.getD randId "")
      else
        .error "No healthy addresses found"
  else
    if st.Addresses.length = 0 then
      .error "No addresses found"
    else
      .ok (st.Addresses.getD (r % st.Addresses.length) "")

/-- The loop body of `MultiClient.GetHealthyAddresses`: resolves each
recorded snapshot index against the pool with `self.Addresses[id]`, which
has no bounds check — `none` models the out-of-bounds panic at a stale
index. -/
def healthyResolve (pool : List String) : List Nat → Option (List String)
  | [] => some []
  | id :: rest =>
    match pool.get? id with
    | none => none
    | some a =>
      match healthyResolve pool rest with
      | none => none
      | some out => some (a :: out)

/-- `MultiClient.GetHealthyAddresses`: `none` models the panic on a stale
snapshot index. -/
def GetHealthyAddresses (st : MCState) : Option (List String) :=
  healthyResolve st.Addresses st.healthyAddresses

/-- Outcome of `MultiClient.Request`: an immediate response on a successful
`Perform`, an immediate abort on an address-selection failure, the last
`Perform` error after the loop, or the generic
"Exceeded retry limit for request" error. Responses are abstract handles
(`Nat`). -/
inductive ReqOutcome
  | success (resp : Nat)
  | selectionFailure (e : String)
  | performFailure (e : String)
  | exceededRetryLimit
deriving DecidableEq, Repr

/-- The `for i := 0; i < self.RetryLimit; i++` loop of `MultiClient.Request`,
over a per-attempt selection oracle `sel` (the outcome of
`GetRandomHealthyAddress` on attempt `i`) and a perform oracle `perf` (the
outcome of `request.Perform` on attempt `i` against the selected address).
`rem` is the number of iterations left, `i` the attempt index, `lastErr`
the Go `lastErr` variable. -/
def requestLoop (sel : Nat → Except String String)
    (perf : Nat → String → Except String Nat) :
    Nat → Nat → Option String → ReqOutcome
  | 0, _, lastErr =>
    match lastErr with
    | some e => .performFailure e
    | none => .exceededRetryLimit
  | rem + 1, i, _ =>
    match sel i with
    | .error e => .selectionFailure e
    | .ok a =>
      match perf i a with
      | .ok resp => .success resp
      | .error e => requestLoop sel perf rem (i + 1) (some e)

/-- `MultiClient.Request` with `RetryLimit` as the Go `int` it is: the loop
runs `RetryLimit.toNat` iterations (a non-positive limit runs none). -/
def Request (RetryLimit : Int) (sel : Nat → Except String String)
    (perf : Nat → String → Except String Nat) : ReqOutcome :=
  requestLoop sel perf RetryLimit.toNat 0 none

/-- Number of select-and-perform attempts the loop makes before stopping
(an attempt whose selection fails, or whose perform succeeds, is the last
one counted). -/
def requestAttemptsLoop (sel : Nat → Except String String)
    (perf : Nat → String → Except String Nat) : Nat → Nat → Nat
  | 0, _ => 0
  | rem + 1, i =>
    match sel i with
    | .error _ => 1
    | .ok a =>
      match perf i a with
      | .ok _ => 1
      | .error _ => 1 + requestAttemptsLoop sel perf rem (i + 1)

/-- Attempts made by `MultiClient.Request` with the given retry limit. -/
def requestAttempts (RetryLimit : Int) (sel : Nat → Except String String)
    (perf : Nat → String → Except String Nat) : Nat :=
  requestAttemptsLoop sel perf RetryLimit.toNat 0

/-- The value of the `preRequestHooks` variable of `MultiClient.Request`
when attempt `k` (1-based) performs, with hooks abstracted to `Nat` tags.
`k = 0` is the variable's value on entry: the per-call hooks passed by the
caller. Each loop iteration reassigns the variable:
`preRequestHooks = append(self.PreRequestHooks, preRequestHooks...)` then
`preRequestHooks = append(preRequestHooks, self.LatePreRequestHooks...)`,
so the list used on attempt `k` is `early ++ (value at attempt k-1) ++ late`. -/
def requestHooksOnAttempt (early late perCall : List Nat) : Nat → List Nat
  | 0 => perCall
  | k + 1 => early ++ requestHooksOnAttempt early late perCall k ++ late

/-- The transport used by `MultiClientRequest.Perform`, clients abstracted
to `Nat` handles: lines 59–61 install `self.Client` (when non-nil) on the
sling builder, and line 162 executes the materialized request with
`http.DefaultClient.Do(httpReq)`. -/
structure PerformTransport where
  slingClient : Option Nat
  executed : Nat
deriving DecidableEq, Repr

/-- `MultiClientRequest.Perform`'s transport wiring: records the sling
configuration from `self.Client` and the client actually used to execute,
which the source fixes to the shared default. -/
def performClientChoice (selfClient : Option Nat) (defaultClient : Nat) :
    PerformTransport :=
  { slingClient := selfClient, executed := defaultClient }

/-- A transport-level response as the decode dispatch sees it. -/
structure HttpResponse where
  StatusCode : Int
  ContentType : String
deriving DecidableEq, Repr

/-- Which sink a decode is dispatched against. -/
inductive Sink
  | success
  | failure
deriving DecidableEq, Repr

/-- The tail of `MultiClientRequest.Perform` after `http.DefaultClient.Do`
returns a response: `if response.StatusCode < 400` dispatch the processor
against the success sink, else against the failure sink, and in both cases
return the response object alongside the processor's error. -/
def performDispatch (resp : HttpResponse)
    (processor : HttpResponse → Sink → Option String) :
    HttpResponse × Option String :=
  if resp.StatusCode < 400 then (resp, processor resp Sink.success)
  else (resp, processor resp Sink.failure)

/-- The characters of a string before its first `;`, i.e. Go
`strings.Split(s, ";")[0]`. -/
def keyChars : List Char → List Char
  | [] => []
  | c :: rest => if c = ';' then [] else c :: keyChars rest

/-- Go `strings.Split(ct, ";")[0]` on the `Content-Type` header value. -/
def contentTypeKey (ct : String) : String :=
  String.mk (keyChars ct.data)

/-- The three decode strategies `DefaultResponseProcessor` can select. -/
inductive DecodeStrategy
  | json
  | xml
  | text
deriving DecidableEq, Repr

/-- The two decoders that actually run (`DecodeJsonResponse`,
`DecodeXmlResponse`). -/
inductive CoreDecoder
  | json
  | xml
deriving DecidableEq, Repr

/-- The switch of `MultiClientRequest.DefaultResponseProcessor` on the
truncated `Content-Type`: `application/json` and `text/json` select the
JSON decode, `text/xml` the XML decode, anything else `DecodeTextResponse`. -/
def dispatchStrategy (ct : String) : DecodeStrategy :=
  if contentTypeKey ct = "application/json" ∨ contentTypeKey ct = "text/json" then
    .json
  else if contentTypeKey ct = "text/xml" then
    .xml
  else
    .text

/-- Which decoder a strategy runs: `DecodeTextResponse` delegates to
`DecodeXmlResponse`. -/
def runStrategy : DecodeStrategy → CoreDecoder
  | .json => .json
  | .xml => .xml
  | .text => .xml

/-- The decoder `DefaultResponseProcessor` effectively runs for a given
`Content-Type` header value. -/
def DefaultResponseProcessor (ct : String) : CoreDecoder :=
  runStrategy (dispatchStrategy ct)

/-- The runtime shape of `MultiClientRequest.RequestBody` as the
`switch self.RequestBody.(type)` in `Perform` inspects it: a readable
stream, a string, a byte sequence (contents abstracted to `String`), or
any other shape. -/
inductive Payload
  | stream (content : String)
  | str (content : String)
  | bytes (content : String)
  | other
deriving DecidableEq, Repr

/-- The `reader` variable after the type switch: `some` content for the
three supported shapes, `none` (a nil `io.Reader`) otherwise. -/
def payloadReader : Payload → Option String
  | .stream c => some c
  | .str c => some c
  | .bytes c => some c
  | .other => none

/-- What `Perform`'s body-encoding step leaves on the outbound request. -/
inductive EncodedBody
  | empty
  | jsonOf (p : Payload)
  | formOf (p : Payload)
  | rawBody (content : String)
  | xmlMarshal (input : String)
deriving DecidableEq, Repr

/-- Result of the body-encoding step: a body, or the runtime panic from
dereferencing a nil reader. -/
inductive EncodeResult
  | done (b : EncodedBody)
  | nilDeref
deriving DecidableEq, Repr

/-- The `if self.RequestBody != nil { switch self.BodyType ... }` block of
`MultiClientRequest.Perform`. A nil body sets nothing. JSON and Form hand
the payload to the marshaller. Raw/XML compute `reader` via the type
switch; XML then calls `ioutil.ReadAll(reader)` — a nil-reader dereference
(runtime panic) when the shape was unsupported — and re-marshals the bytes
as XML; Raw passes `reader` to sling's `Body`, whose nil check makes an
unsupported shape degrade to an empty body. -/
def encodeBody (bt : RequestBodyType) (body : Option Payload) : EncodeResult :=
  match body with
  | none => .done .empty
  | some p =>
    match bt with
    | .BodyJson => .done (.jsonOf p)
    | .BodyForm => .done (.formOf p)
    | .BodyRaw =>
      match payloadReader p with
      | some c => .done (.rawBody c)
      | none => .done .empty
    | .BodyXml =>
      match payloadReader p with
      | some c => .done (.xmlMarshal c)
      | none => .nilDeref

/-- A pool of two addresses, health checking disabled. -/
def stPoolOnly : MCState :=
  { Addresses := ["addr-a", "addr-b"], healthyAddresses := [],
    active := true, HealthChecks := false }

/-- An active tracker with one pool entry and a previously recorded
non-empty snapshot. -/
def stPrevHealthy : MCState :=
  { Addresses := ["addr-a"], healthyAddresses := [0],
    active := true, HealthChecks := true }

/-- A tracker whose snapshot `[0, 1]` was recorded against a two-entry
pool that was then shrunk to one entry through `SetAddresses`, leaving the
stale index `1`. -/
def stStale : MCState :=
  SetAddresses
    (checkConnect
      { Addresses := ["addr-a", "addr-b"], healthyAddresses := [],
        active := true, HealthChecks := true }
      (fun _ => true) 2).1
    ["addr-a"]

/-- A selection oracle that always succeeds with the same address. -/
def selOk : Nat → Except String String := fun _ => .ok "addr-a"

/-- A selection oracle that always fails. -/
def selNoAddr : Nat → Except String String := fun _ => .error "no addr"

/-- A perform oracle that always fails. -/
def perfFail : Nat → String → Except String Nat := fun _ _ => .error "boom"

/-- A response processor that always reports a decode failure. -/
def procFail : HttpResponse → Sink → Option String := fun _ _ => some "decode failed"

/-- An element fetched by `getD` at an in-bounds position is a member of
the list. -/
theorem getElem?_getD_mem {α : Type} (l : List α) (n : Nat) (d : α)
    (h : n < l.length) : l[n]?.getD d ∈ l := by
  rw [List.getElem?_eq_getElem h]
  exact List.getElem_mem h

/-- Truncating at the first `;` is idempotent. -/
theorem keyChars_idem (l : List Char) : keyChars (keyChars l) = keyChars l := by
  induction l with
  | nil => rfl
  | cons c rest ih =>
    by_cases h : c = ';'
    · simp [keyChars, h]
    · simp [keyChars, h, ih]

/-- `contentTypeKey` is idempotent. -/
theorem contentTypeKey_idem (ct : String) :
    contentTypeKey (contentTypeKey ct) = contentTypeKey ct := by
  simp [contentTypeKey, keyChars_idem]

/-- C5: for every prior tracker state, `Suspend` sets the activation state
to suspended, the triggered require-all check returns the inactive-client
error, and the health snapshot is empty afterwards. -/
theorem Suspend_clears_snapshot (st : MCState) (isHealthy : Nat → Bool) :
    (Suspend st isHealthy).1.active = false ∧
    (Suspend st isHealthy).1.healthyAddresses = [] ∧
    (Suspend st isHealthy).2 = some "Client is not active" := by
  simp [Suspend, CheckAll, checkConnect]

/-- C2: the `preRequestHooks` variable of `MultiClient.Request` accumulates
across retries. With one early hook (tag 0), one per-call hook (tag 1) and
one late hook (tag 2), attempt 1 runs `[0, 1, 2]` but attempt 2 runs
`[0, 0, 1, 2, 2]`: the early hook appears twice on attempt 2, more often
than on attempt 1, contradicting the fresh-descriptor rule. -/
theorem Request_hooks_accumulate :
    requestHooksOnAttempt [0] [2] [1] 1 = [0, 1, 2] ∧
    requestHooksOnAttempt [0] [2] [1] 2 = [0, 0, 1, 2, 2] ∧
    (requestHooksOnAttempt [0] [2] [1] 2).count 0 = 2 ∧
    (requestHooksOnAttempt [0] [2] [1] 1).count 0 = 1 := by
  decide

/-- C3: `MultiClientRequest.Perform` executes every request with the shared
default client, even when an explicit client (handle 7, distinct from the
default handle 0) was installed on the sling builder. -/
theorem Perform_ignores_configured_client :
    (performClientChoice (some 7) 0).slingClient = some 7 ∧
    (performClientChoice (some 7) 0).executed = 0 ∧
    (performClientChoice (some 7) 0).executed ≠ 7 := by
  decide

/-- C9 counterexample: with body type XML and a payload that is none of a
readable stream, a string, or a byte sequence, the body-encoding step of
`Perform` dereferences a nil reader — a runtime panic, not the claimed
degradation to an empty body. -/
theorem encodeBody_xml_other_panics :
    encodeBody RequestBodyType.BodyXml (some Payload.other) = EncodeResult.nilDeref ∧
    EncodeResult.nilDeref ≠ EncodeResult.done EncodedBody.empty := by
  decide

/-- C9 (amended): a Raw body with an unsupported payload shape degrades to
an empty body without error, but an XML body with an unsupported payload
shape hits the nil-reader dereference. -/
theorem encodeBody_unsupported_shape :
    encodeBody RequestBodyType.BodyRaw (some Payload.other) =
      EncodeResult.done EncodedBody.empty ∧
    encodeBody RequestBodyType.BodyXml (some Payload.other) =
      EncodeResult.nilDeref := by
  decide

/-- C7: `Perform` dispatches the response processor against the success
sink exactly when the status is < 400 and against the failure sink exactly
when it is ≥ 400, and always returns the transport-level response object,
decode error or not. -/
theorem Perform_status_dispatch (resp : HttpResponse)
    (proc : HttpResponse → Sink → Option String) :
    (performDispatch resp proc).1 = resp ∧
    (resp.StatusCode < 400 →
      (performDispatch resp proc).2 = proc resp Sink.success) ∧
    (400 ≤ resp.StatusCode →
      (performDispatch resp proc).2 = proc resp Sink.failure) := by
  by_cases h : resp.StatusCode < 400
  · exact ⟨by simp [performDispatch, h], fun _ => by simp [performDispatch, h],
      fun h2 => absurd h (by omega)⟩
  · exact ⟨by simp [performDispatch, h], fun h2 => absurd h2 h,
      fun _ => by simp [performDispatch, h]⟩

/-- C7 witness: a 200 response whose decode fails is still returned. -/
theorem Perform_status_dispatch_witness :
    (performDispatch ⟨200, "application/json"⟩ procFail).1 =
      ⟨200, "application/json"⟩ ∧
    (performDispatch ⟨200, "application/json"⟩ procFail).2 =
      some "decode failed" :=
  ⟨(Perform_status_dispatch ⟨200, "application/json"⟩ procFail).1,
   (Perform_status_dispatch ⟨200, "application/json"⟩ procFail).2.1 (by decide)⟩

/-- C8: the default response processor keys on the `Content-Type` truncated
at the first `;`: `application/json` and `text/json` run the JSON decoder,
`text/xml` runs the XML decoder, and every other value — `text/plain`
included — falls back to the XML decoder. -/
theorem DefaultResponseProcessor_dispatch :
    DefaultResponseProcessor "application/json" = CoreDecoder.json ∧
    DefaultResponseProcessor "text/json" = CoreDecoder.json ∧
    DefaultResponseProcessor "text/xml" = CoreDecoder.xml ∧
    DefaultResponseProcessor "text/plain" = CoreDecoder.xml ∧
    (∀ ct : String,
      DefaultResponseProcessor ct = DefaultResponseProcessor (contentTypeKey ct)) ∧
    (∀ ct : String, contentTypeKey ct ≠ "application/json" →
      contentTypeKey ct ≠ "text/json" → contentTypeKey ct ≠ "text/xml" →
      DefaultResponseProcessor ct = CoreDecoder.xml) := by
  refine ⟨by decide, by decide, by decide, by decide, ?_, ?_⟩
  · intro ct
    simp [DefaultResponseProcessor, dispatchStrategy, contentTypeKey_idem]
  · intro ct h1 h2 h3
    simp [DefaultResponseProcessor, dispatchStrategy, runStrategy, h1, h2, h3]

/-- C8 witness: a parameterized plain-text content type decodes via XML. -/
theorem DefaultResponseProcessor_dispatch_witness :
    DefaultResponseProcessor "text/plain; charset=utf-8" = CoreDecoder.xml :=
  DefaultResponseProcessor_dispatch.2.2.2.2.2 "text/plain; charset=utf-8"
    (by decide) (by decide) (by decide)

/-- C6: `GetRandomHealthyAddress` with health checking disabled fails
exactly on an empty pool and otherwise returns a pool member; with health
checking enabled it fails exactly when the snapshot is empty or the
selected snapshot index is out of pool bounds, and otherwise returns the
pool address at a snapshot index. -/
theorem GetRandomHealthyAddress_spec (st : MCState) (r : Nat) :
    (st.HealthChecks = false →
      ((∃ e, GetRandomHealthyAddress st r = .error e) ↔ st.Addresses = []) ∧
      (∀ a, GetRandomHealthyAddress st r = .ok a → a ∈ st.Addresses)) ∧
    (st.HealthChecks = true →
      ((∃ e, GetRandomHealthyAddress st r = .error e) ↔
        (st.healthyAddresses = [] ∨
         st.Addresses.length ≤
           st.healthyAddresses.getD (r % st.healthyAddresses.length) 0)) ∧
      (∀ a, GetRandomHealthyAddress st r = .ok a →
        ∃ id, id ∈ st.healthyAddresses ∧ id < st.Addresses.length ∧
          a = st.Addresses.getD id "")) := by
  simp only [List.getD_eq_getElem?_getD]
  constructor
  · intro hhc
    by_cases hlen : st.Addresses.length = 0
    · have hnil : st.Addresses = [] := List.length_eq_zero.mp hlen
      constructor
      · constructor
        · intro _; exact hnil
        · intro _; exact ⟨"No addresses found",
            by simp [GetRandomHealthyAddress, hhc, hlen]⟩
      · intro a ha
        simp [GetRandomHealthyAddress, hhc, hlen] at ha
    · constructor
      · constructor
        · rintro ⟨e, he⟩
          simp [GetRandomHealthyAddress, hhc, hlen] at he
        · intro hnil
          exact absurd (by simp [hnil]) hlen
      · intro a ha
        simp [GetRandomHealthyAddress, hhc, hlen] at ha
        exact ha ▸ getElem?_getD_mem st.Addresses (r % st.Addresses.length) ""
          (Nat.mod_lt r (Nat.pos_of_ne_zero hlen))
  · intro hhc
    by_cases hsn : st.healthyAddresses.length = 0
    · have hnil : st.healthyAddresses = [] := List.length_eq_zero.mp hsn
      constructor
      · constructor
        · intro _; exact Or.inl hnil
        · intro _; exact ⟨"No healthy addresses found",
            by simp [GetRandomHealthyAddress, hhc, hsn]⟩
      · intro a ha
        simp [GetRandomHealthyAddress, hhc, hsn] at ha
    · have hne : st.healthyAddresses ≠ [] := fun h => hsn (by simp [h])
      by_cases hid :
          st.healthyAddresses[r % st.healthyAddresses.length]?.getD 0 <
            st.Addresses.length
      · constructor
        · constructor
          · rintro ⟨e, he⟩
            simp [GetRandomHealthyAddress, hhc, hsn, hid] at he
          · rintro (h | h)
            · exact absurd h hne
            · exact absurd hid (Nat.not_lt.mpr h)
        · intro a ha
          simp [GetRandomHealthyAddress, hhc, hsn, hid] at ha
          exact ⟨st.healthyAddresses[r % st.healthyAddresses.length]?.getD 0,
            getElem?_getD_mem st.healthyAddresses (r % st.healthyAddresses.length) 0
              (Nat.mod_lt r (Nat.pos_of_ne_zero hsn)),
            hid, by simp [List.getElem?_eq_getElem hid, ha]⟩
      · constructor
        · constructor
          · intro _; exact Or.inr (Nat.not_lt.mp hid)
          · intro _; exact ⟨"No healthy addresses found",
              by simp [GetRandomHealthyAddress, hhc, hsn, hid]⟩
        · intro a ha
          simp [GetRandomHealthyAddress, hhc, hsn, hid] at ha

/-- C6 witness: on a two-address pool with health checking disabled, seed 3
selects index 1 and the result is a pool member. -/
theorem GetRandomHealthyAddress_spec_witness :
    GetRandomHealthyAddress stPoolOnly 3 = .ok "addr-b" ∧
    "addr-b" ∈ stPoolOnly.Addresses :=
  ⟨rfl, ((GetRandomHealthyAddress_spec stPoolOnly 3).1 rfl).2 "addr-b" rfl⟩

/-- A stale snapshot index (at or beyond the pool length) makes the
resolution loop of `GetHealthyAddresses` go out of bounds. -/
theorem healthyResolve_stale (pool : List String) :
    ∀ ids : List Nat, (∃ id, id ∈ ids ∧ pool.length ≤ id) →
      healthyResolve pool ids = none := by
  intro ids
  induction ids with
  | nil => rintro ⟨id, h, _⟩; simp at h
  | cons j rest ih =>
    rintro ⟨id, hmem, hle⟩
    rcases List.mem_cons.mp hmem with rfl | hmem'
    · have hj : pool[id]? = none := List.getElem?_eq_none hle
      simp [healthyResolve, hj]
    · cases hj : pool[j]? with
      | none => simp [healthyResolve, hj]
      | some a => simp [healthyResolve, hj, ih ⟨id, hmem', hle⟩]

/-- With every snapshot index in bounds, the resolution loop returns the
pool addresses at the recorded indices, in snapshot order. -/
theorem healthyResolve_ok (pool : List String) :
    ∀ ids : List Nat, (∀ id, id ∈ ids → id < pool.length) →
      healthyResolve pool ids = some (ids.map (fun id => pool.getD id "")) := by
  intro ids
  induction ids with
  | nil => intro _; rfl
  | cons j rest ih =>
    intro hall
    have hj : j < pool.length := hall j (List.mem_cons_self j rest)
    have hg : pool[j]? = some pool[j] := List.getElem?_eq_getElem hj
    simp [healthyResolve, hg,
      ih (fun id hid => hall id (List.mem_cons_of_mem j hid))]

/-- C10: `GetHealthyAddresses` panics (models as `none`) whenever some
snapshot index is at or beyond the pool length, returns exactly the pool
addresses at the recorded indices in snapshot order when all indices are in
bounds, while `GetRandomHealthyAddress` guards the same stale-index
condition and returns an error instead. -/
theorem GetHealthyAddresses_spec (st : MCState) :
    ((∃ id, id ∈ st.healthyAddresses ∧ st.Addresses.length ≤ id) →
      GetHealthyAddresses st = none) ∧
    ((∀ id, id ∈ st.healthyAddresses → id < st.Addresses.length) →
      GetHealthyAddresses st =
        some (st.healthyAddresses.map (fun id => st.Addresses.getD id ""))) ∧
    (∀ r : Nat, st.HealthChecks = true → st.healthyAddresses ≠ [] →
      st.Addresses.length ≤
        st.healthyAddresses.getD (r % st.healthyAddresses.length) 0 →
      GetRandomHealthyAddress st r = .error "No healthy addresses found") := by
  refine ⟨fun h => healthyResolve_stale _ _ h, fun h => healthyResolve_ok _ _ h, ?_⟩
  intro r hhc hne hle
  have hsn : st.healthyAddresses.length ≠ 0 := fun h => hne (List.length_eq_zero.mp h)
  have hle2 : st.Addresses.length ≤
      st.healthyAddresses[r % st.healthyAddresses.length]?.getD 0 := by
    simpa using hle
  simp [GetRandomHealthyAddress, hhc, hsn, Nat.not_lt.mpr hle2]

/-- C10 witness: shrinking the pool with `SetAddresses` after a successful
probe leaves the stale index 1, on which `GetHealthyAddresses` goes out of
bounds. -/
theorem GetHealthyAddresses_spec_witness :
    GetHealthyAddresses stStale = none :=
  (GetHealthyAddresses_spec stStale).1 ⟨1, by decide, by decide⟩

/-- Every index collected by the scan loop passed its probe and lies in
`[i, i + rem)`. -/
theorem checkScan_mem (isHealthy : Nat → Bool) (minS : Int) :
    ∀ rem i count j, j ∈ checkScan isHealthy minS rem i count →
      isHealthy j = true ∧ i ≤ j ∧ j < i + rem := by
  intro rem
  induction rem with
  | zero => intro i c j h; simp [checkScan] at h
  | succ n ih =>
    intro i c j h
    by_cases hh : isHealthy i
    · rw [checkScan, if_pos hh] at h
      by_cases hm : ((c : Int) + 1) ≥ minS
      · rw [if_pos hm] at h
        simp at h
        subst h
        exact ⟨hh, Nat.le_refl j, by omega⟩
      · rw [if_neg hm] at h
        rcases List.mem_cons.mp h with rfl | h'
        · exact ⟨hh, Nat.le_refl j, by omega⟩
        · obtain ⟨h1, h2, h3⟩ := ih (i + 1) (c + 1) j h'
          exact ⟨h1, by omega, by omega⟩
    · rw [checkScan, if_neg hh] at h
      by_cases hm : (c : Int) ≥ minS
      · rw [if_pos hm] at h; simp at h
      · rw [if_neg hm] at h
        obtain ⟨h1, h2, h3⟩ := ih (i + 1) c j h
        exact ⟨h1, by omega, by omega⟩

/-- C4 counterexample: an active tracker with previously recorded snapshot
`[0]` runs a check in which the single pool entry fails its probe; the
check fails with the not-enough outcome, yet the snapshot has been
overwritten to `[]` — the previously-good snapshot is not left unchanged. -/
theorem checkConnect_overwrites_snapshot :
    ((checkConnect stPrevHealthy (fun _ => false) 1).2).isSome = true ∧
    (checkConnect stPrevHealthy (fun _ => false) 1).1.healthyAddresses = [] ∧
    stPrevHealthy.healthyAddresses = [0] ∧
    (checkConnect stPrevHealthy (fun _ => false) 1).1.healthyAddresses ≠
      stPrevHealthy.healthyAddresses := by
  decide

/-- C4 (amended): every active `checkConnect` — failing or not — replaces
the snapshot with exactly the indices that passed during this scan, all of
which probed healthy and are in pool bounds, and errors iff fewer than
`minS` passed; the previous snapshot is not preserved on a not-enough
outcome. Pool and activation state are untouched. -/
theorem checkConnect_spec (st : MCState) (isHealthy : Nat → Bool) (minS : Int)
    (hact : st.active = true) :
    (checkConnect st isHealthy minS).1.healthyAddresses =
      checkScan isHealthy minS st.Addresses.length 0 0 ∧
    (∀ j, j ∈ (checkConnect st isHealthy minS).1.healthyAddresses →
      isHealthy j = true ∧ j < st.Addresses.length) ∧
    (((checkConnect st isHealthy minS).2).isSome ↔
      (((checkConnect st isHealthy minS).1.healthyAddresses).length : Int) < minS) ∧
    (checkConnect st isHealthy minS).1.Addresses = st.Addresses ∧
    (checkConnect st isHealthy minS).1.active = st.active := by
  have hmem : ∀ j, j ∈ checkScan isHealthy minS st.Addresses.length 0 0 →
      isHealthy j = true ∧ j < st.Addresses.length := by
    intro j hj
    obtain ⟨h1, _, h3⟩ := checkScan_mem isHealthy minS st.Addresses.length 0 0 j hj
    exact ⟨h1, by omega⟩
  by_cases hc :
      ((checkScan isHealthy minS st.Addresses.length 0 0).length : Int) < minS
  · refine ⟨by simp [checkConnect, hact, hc], ?_, ?_, by simp [checkConnect, hact, hc],
      by simp [checkConnect, hact, hc, hact]⟩
    · intro j hj
      rw [show (checkConnect st isHealthy minS).1.healthyAddresses =
        checkScan isHealthy minS st.Addresses.length 0 0 from
          by simp [checkConnect, hact, hc]] at hj
      exact hmem j hj
    · simp [checkConnect, hact, hc]
  · refine ⟨by simp [checkConnect, hact, hc], ?_, ?_, by simp [checkConnect, hact, hc],
      by simp [checkConnect, hact, hc, hact]⟩
    · intro j hj
      rw [show (checkConnect st isHealthy minS).1.healthyAddresses =
        checkScan isHealthy minS st.Addresses.length 0 0 from
          by simp [checkConnect, hact, hc]] at hj
      exact hmem j hj
    · simp [checkConnect, hact, hc]

/-- C4 witness: the failing not-enough check on `stPrevHealthy` reports an
error via the amended characterization. -/
theorem checkConnect_spec_witness :
    ((checkConnect stPrevHealthy (fun _ => false) 1).2).isSome = true :=
  (checkConnect_spec stPrevHealthy (fun _ => false) 1 rfl).2.2.1.mpr (by decide)

/-- The retry loop never runs more iterations than its remaining budget. -/
theorem requestAttemptsLoop_le (sel : Nat → Except String String)
    (perf : Nat → String → Except String Nat) :
    ∀ rem i, requestAttemptsLoop sel perf rem i ≤ rem := by
  intro rem
  induction rem with
  | zero => intro i; simp [requestAttemptsLoop]
  | succ n ih =>
    intro i
    cases hs : sel i with
    | error e => simp [requestAttemptsLoop, hs]
    | ok a =>
      cases hp : perf i a with
      | ok resp => simp [requestAttemptsLoop, hs, hp]
      | error e =>
        have h := ih (i + 1)
        simp only [requestAttemptsLoop, hs, hp]
        omega

/-- Once some attempt has recorded an error, the loop can no longer end in
the generic retry-limit error. -/
theorem requestLoop_some_ne_generic (sel : Nat → Except String String)
    (perf : Nat → String → Except String Nat) :
    ∀ rem i e, requestLoop sel perf rem i (some e) ≠ .exceededRetryLimit := by
  intro rem
  induction rem with
  | zero => intro i e h; simp [requestLoop] at h
  | succ n ih =>
    intro i e h
    cases hs : sel i with
    | error e2 => simp [requestLoop, hs] at h
    | ok a =>
      cases hp : perf i a with
      | ok resp => simp [requestLoop, hs, hp] at h
      | error e2 =>
        simp only [requestLoop, hs, hp] at h
        exact ih (i + 1) e2 h

/-- Starting with no recorded error, the loop ends in the generic
retry-limit error exactly when it has zero iterations to run. -/
theorem requestLoop_generic_iff (sel : Nat → Except String String)
    (perf : Nat → String → Except String Nat) :
    ∀ rem i, requestLoop sel perf rem i none = .exceededRetryLimit ↔ rem = 0 := by
  intro rem i
  cases rem with
  | zero => simp [requestLoop]
  | succ n =>
    constructor
    · intro h
      cases hs : sel i with
      | error e => simp [requestLoop, hs] at h
      | ok a =>
        cases hp : perf i a with
        | ok resp => simp [requestLoop, hs, hp] at h
        | error e =>
          simp only [requestLoop, hs, hp] at h
          exact absurd h (requestLoop_some_ne_generic sel perf n (i + 1) e)
    · intro h
      exact absurd h (Nat.succ_ne_zero n)

/-- If the first `k` attempts all select fine and fail their perform, and
attempt `k` (still within budget) fails its selection, the loop aborts with
that selection error. -/
theorem requestLoop_selectionAbort (sel : Nat → Except String String)
    (perf : Nat → String → Except String Nat) (e : String) :
    ∀ k rem i le, k < rem →
      (∀ j, j < k → ∃ a er, sel (i + j) = .ok a ∧ perf (i + j) a = .error er) →
      sel (i + k) = .error e →
      requestLoop sel perf rem i le = .selectionFailure e := by
  intro k
  induction k with
  | zero =>
    intro rem i le hk hprev hsel
    cases rem with
    | zero => omega
    | succ n =>
      have hs : sel i = .error e := by simpa using hsel
      simp [requestLoop, hs]
  | succ m ih =>
    intro rem i le hk hprev hsel
    cases rem with
    | zero => omega
    | succ n =>
      obtain ⟨a, er, ha, hp⟩ := hprev 0 (Nat.succ_pos m)
      have ha2 : sel i = .ok a := by simpa using ha
      have hp2 : perf i a = .error er := by simpa using hp
      simp only [requestLoop, ha2, hp2]
      refine ih n (i + 1) (some er) (by omega) ?_ ?_
      · intro j hj
        obtain ⟨a2, er2, h1, h2⟩ := hprev (j + 1) (by omega)
        exact ⟨a2, er2,
          by simpa [show i + 1 + j = i + (j + 1) from by omega] using h1,
          by simpa [show i + 1 + j = i + (j + 1) from by omega] using h2⟩
      · simpa [show i + 1 + m = i + (m + 1) from by omega] using hsel

/-- If the first `k` attempts all select fine and fail their perform, and
attempt `k` (still within budget) selects fine and performs successfully,
the loop returns that response. -/
theorem requestLoop_successAt (sel : Nat → Except String String)
    (perf : Nat → String → Except String Nat) (resp : Nat) :
    ∀ k rem i le a, k < rem →
      (∀ j, j < k → ∃ a2 er, sel (i + j) = .ok a2 ∧ perf (i + j) a2 = .error er) →
      sel (i + k) = .ok a → perf (i + k) a = .ok resp →
      requestLoop sel perf rem i le = .success resp := by
  intro k
  induction k with
  | zero =>
    intro rem i le a hk hprev hsel hperf
    cases rem with
    | zero => omega
    | succ n =>
      have hs : sel i = .ok a := by simpa using hsel
      have hpf : perf i a = .ok resp := by simpa using hperf
      simp [requestLoop, hs, hpf]
  | succ m ih =>
    intro rem i le a hk hprev hsel hperf
    cases rem with
    | zero => omega
    | succ n =>
      obtain ⟨a0, er, ha, hp⟩ := hprev 0 (Nat.succ_pos m)
      have ha2 : sel i = .ok a0 := by simpa using ha
      have hp2 : perf i a0 = .error er := by simpa using hp
      simp only [requestLoop, ha2, hp2]
      refine ih n (i + 1) (some er) a (by omega) ?_ ?_ ?_
      · intro j hj
        obtain ⟨a2, er2, h1, h2⟩ := hprev (j + 1) (by omega)
        exact ⟨a2, er2,
          by simpa [show i + 1 + j = i + (j + 1) from by omega] using h1,
          by simpa [show i + 1 + j = i + (j + 1) from by omega] using h2⟩
      · simpa [show i + 1 + m = i + (m + 1) from by omega] using hsel
      · simpa [show i + 1 + m = i + (m + 1) from by omega] using hperf

/-- If every attempt in the budget selects fine and fails its perform, the
loop ends with the error of the last attempt. -/
theorem requestLoop_allFail (sel : Nat → Except String String)
    (perf : Nat → String → Except String Nat) :
    ∀ rem i le, 0 < rem →
      (∀ j, j < rem → ∃ a er, sel (i + j) = .ok a ∧ perf (i + j) a = .error er) →
      ∀ a e, sel (i + (rem - 1)) = .ok a → perf (i + (rem - 1)) a = .error e →
        requestLoop sel perf rem i le = .performFailure e := by
  intro rem
  induction rem with
  | zero => intro i le h; omega
  | succ n ih =>
    intro i le hpos hall a e hsel hperf
    obtain ⟨a0, e0, h0s, h0p⟩ := hall 0 (Nat.succ_pos n)
    have h0s2 : sel i = .ok a0 := by simpa using h0s
    have h0p2 : perf i a0 = .error e0 := by simpa using h0p
    cases n with
    | zero =>
      have hsa : sel i = .ok a := by simpa using hsel
      have haa : a0 = a := by
        rw [h0s2] at hsa
        injection hsa
      subst haa
      have hpe : perf i a0 = .error e := by simpa using hperf
      have hee : e0 = e := by
        rw [h0p2] at hpe
        injection hpe
      subst hee
      simp [requestLoop, h0s2, h0p2]
    | succ m =>
      simp only [requestLoop, h0s2, h0p2]
      refine ih (i + 1) (some e0) (Nat.succ_pos m) ?_ a e ?_ ?_
      · intro j hj
        obtain ⟨a2, er2, h1, h2⟩ := hall (j + 1) (by omega)
        exact ⟨a2, er2,
          by simpa [show i + 1 + j = i + (j + 1) from by omega] using h1,
          by simpa [show i + 1 + j = i + (j + 1) from by omega] using h2⟩
      · simpa [show i + 1 + m = i + (m + 1) from by omega] using hsel
      · simpa [show i + 1 + m = i + (m + 1) from by omega] using hperf

/-- C1 (amended): `Request` makes at most `max(RetryLimit, 0)` attempts; a
selection failure aborts immediately with that error; a successful perform
returns immediately; when every attempt in the budget fails its perform the
last perform error is returned; and the generic retry-limit error occurs
exactly when `RetryLimit ≤ 0` (no attempt ever recorded an error). -/
theorem Request_retry_spec (R : Int) (sel : Nat → Except String String)
    (perf : Nat → String → Except String Nat) :
    requestAttempts R sel perf ≤ R.toNat ∧
    (∀ k e, k < R.toNat →
      (∀ j, j < k → ∃ a er, sel j = .ok a ∧ perf j a = .error er) →
      sel k = .error e → Request R sel perf = .selectionFailure e) ∧
    (∀ k a resp, k < R.toNat →
      (∀ j, j < k → ∃ a2 er, sel j = .ok a2 ∧ perf j a2 = .error er) →
      sel k = .ok a → perf k a = .ok resp → Request R sel perf = .success resp) ∧
    (0 < R.toNat →
      (∀ j, j < R.toNat → ∃ a er, sel j = .ok a ∧ perf j a = .error er) →
      ∀ a e, sel (R.toNat - 1) = .ok a → perf (R.toNat - 1) a = .error e →
        Request R sel perf = .performFailure e) ∧
    (Request R sel perf = .exceededRetryLimit ↔ R ≤ 0) := by
  refine ⟨requestAttemptsLoop_le sel perf R.toNat 0, ?_, ?_, ?_, ?_⟩
  · intro k e hk hprev hsel
    exact requestLoop_selectionAbort sel perf e k R.toNat 0 none hk
      (fun j hj => by simpa using hprev j hj) (by simpa using hsel)
  · intro k a resp hk hprev hsel hperf
    exact requestLoop_successAt sel perf resp k R.toNat 0 none a hk
      (fun j hj => by simpa using hprev j hj) (by simpa using hsel)
      (by simpa using hperf)
  · intro hpos hall a e hsel hperf
    exact requestLoop_allFail sel perf R.toNat 0 none hpos
      (fun j hj => by simpa using hall j hj) a e (by simpa using hsel)
      (by simpa using hperf)
  · rw [Request, requestLoop_generic_iff sel perf R.toNat 0]
    exact Int.toNat_eq_zero

/-- C1 witness: with a retry limit of 1 and a selector that fails at once,
`Request` aborts with the selection error. -/
theorem Request_retry_spec_witness :
    Request 1 selNoAddr perfFail = .selectionFailure "no addr" :=
  (Request_retry_spec 1 selNoAddr perfFail).2.1 0 "no addr" (by decide)
    (fun j hj => absurd hj (Nat.not_lt_zero j)) rfl

/-- C1 counterexample: with `RetryLimit = -1` the loop body never runs, no
attempt produces an error, and `Request` returns the generic retry-limit
error although the retry limit is not 0 — refuting the gloss that the
generic error occurs exactly when `RetryLimit` is 0. -/
theorem Request_negative_limit_generic :
    Request (-1) selOk perfFail = .exceededRetryLimit ∧ (-1 : Int) ≠ 0 :=
  ⟨rfl, by decide⟩

end Bee
